import Mathlib

/-!
Verification of the reddit-llm post fetching and chunking code
(src/reddit_llm/main.py), shallowly embedded in Lean 4.

Embedding notes:
- A reddit `post` object is modelled by the `Post` structure carrying exactly
  the fields the code reads: `title`, `selftext`, `created_utc`, `permalink`.
- `count_tokens` calls into the external tiktoken library, so the token
  counter is kept as an explicit function parameter `ct : String → Nat`;
  every theorem quantifies over it (or instantiates it on concrete inputs).
- `datetime.fromtimestamp` / `datetime.utcnow()` are modelled over integer
  Unix seconds; `cutoff_time = now - time_period_days * 86400` mirrors
  `datetime.utcnow() - timedelta(days=time_period_days)`.
- `strftime` with format "%Y-%m-%d %H:%M:%S UTC" is implemented over Unix
  seconds with the standard civil-from-days conversion.
- The `for post in subreddit.new(limit=None)` stream is modelled as an
  explicit list of posts in the order the generator yields them; the
  `break` is the early return of the structural recursion in `fetchLoop`.
- The interactive `while True` loop of `main` is modelled over the list of
  strings the user would type; it returns the inputs forwarded to the
  backend and whether the loop was terminated by `quit`.
-/

/-- A reddit post, with the fields `fetch_subreddit_posts` reads. -/
structure Post where
  title : String
  selftext : String
  created_utc : Int
  permalink : String
deriving DecidableEq, Repr

/-- Zero-pad a number to two digits (strftime %m, %d, %H, %M, %S). -/
def pad2 (n : Nat) : String :=
  if n < 10 then "0" ++ toString n else toString n

/-- Zero-pad a number to four digits (strftime %Y). -/
def pad4 (n : Nat) : String :=
  if n < 10 then "000" ++ toString n
  else if n < 100 then "00" ++ toString n
  else if n < 1000 then "0" ++ toString n
  else toString n

/-- Convert a count of days since the Unix epoch to a civil
(year, month, day) date, by the standard era-based algorithm. -/
def civilFromDays (z : Int) : Int × Nat × Nat :=
  let z' := z + 719468
  let era := z'.ediv 146097
  let doe := (z'.emod 146097).toNat
  let yoe := (doe - doe / 1460 + doe / 36524 - doe / 146096) / 365
  let y := (yoe : Int) + era * 400
  let doy := doe - (365 * yoe + yoe / 4 - yoe / 100)
  let mp := (5 * doy + 2) / 153
  let d := doy - (153 * mp + 2) / 5 + 1
  let m := if mp < 10 then mp + 3 else mp - 9
  (if m ≤ 2 then y + 1 else y, m, d)

/-- `post_time.strftime('%Y-%m-%d %H:%M:%S UTC')` on a Unix timestamp in
seconds (the " UTC" is a literal in the format string used by the code). -/
def strftime (t : Int) : String :=
  let days := t.ediv 86400
  let secs := (t.emod 86400).toNat
  let ymd := civilFromDays days
  let hh := secs / 3600
  let mm := secs % 3600 / 60
  let ss := secs % 60
  pad4 ymd.1.toNat ++ "-" ++ pad2 ymd.2.1 ++ "-" ++ pad2 ymd.2.2 ++ " " ++
    pad2 hh ++ ":" ++ pad2 mm ++ ":" ++ pad2 ss ++ " UTC"

/-- The `post_text` f-string of `fetch_subreddit_posts` (main.py lines 58-65):
a leading newline, a Title line, a Time line, a URL line joining the fixed
base "https://reddit.com" with the permalink, a "Content:" label, the raw
body, and a trailing "---" separator line. -/
def format_post (p : Post) : String :=
  "\nTitle: " ++ p.title ++
  "\nTime: " ++ strftime p.created_utc ++
  "\nURL: https://reddit.com" ++ p.permalink ++
  "\nContent:\n" ++ p.selftext ++
  "\n---\n"

/-- The mutable locals of the loop in `fetch_subreddit_posts`
(main.py lines 48-51). -/
structure FetchState where
  all_posts : List String
  total_tokens : Nat
  posts_included : Nat
  posts_skipped : Nat
deriving DecidableEq, Repr

/-- The `for post in subreddit.new(limit=None)` loop of
`fetch_subreddit_posts` (main.py lines 53-74): break at the first post
older than the cutoff; otherwise render the post, and either include it
(when `total_tokens + post_tokens <= max_tokens`) or count it as skipped.
`ct` is the `count_tokens` function. -/
def fetchLoop (ct : String → Nat) (max_tokens : Nat) (cutoff_time : Int) :
    List Post → FetchState → FetchState
  | [], s => s
  | p :: rest, s =>
    if p.created_utc < cutoff_time then s
    else
      let post_text := format_post p
      let post_tokens := ct post_text
      if s.total_tokens + post_tokens ≤ max_tokens then
        fetchLoop ct max_tokens cutoff_time rest
          { all_posts := s.all_posts ++ [post_text],
            total_tokens := s.total_tokens + post_tokens,
            posts_included := s.posts_included + 1,
            posts_skipped := s.posts_skipped }
      else
        fetchLoop ct max_tokens cutoff_time rest
          { s with posts_skipped := s.posts_skipped + 1 }

/-- The loop state at the end of `fetch_subreddit_posts`, starting from the
empty initial state with `cutoff_time = now - time_period_days` days. -/
def fetchState (ct : String → Nat) (posts : List Post) (now : Int)
    (time_period_days : Int) (max_tokens : Nat) : FetchState :=
  fetchLoop ct max_tokens (now - time_period_days * 86400) posts
    { all_posts := [], total_tokens := 0, posts_included := 0, posts_skipped := 0 }

/-- `fetch_subreddit_posts` (main.py lines 30-79): returns the combined
string `"\n".join(all_posts)` together with the include and skip counts. -/
def fetch_subreddit_posts (ct : String → Nat) (posts : List Post) (now : Int)
    (time_period_days : Int) (max_tokens : Nat) : String × Nat × Nat :=
  let s := fetchState ct posts now time_period_days max_tokens
  (String.intercalate "\n" s.all_posts, s.posts_included, s.posts_skipped)

/-- Python's `str.lower()`: lowercase every character (ASCII case folding
suffices for the comparison against "quit"). -/
def str_lower (s : String) : String :=
  ⟨s.data.map Char.toLower⟩

/-- The interactive `while True` loop of `main` (main.py lines 210-221),
run over the successive strings the user types. Returns the inputs that
are forwarded to the backend as questions, and whether the loop was
terminated by a (case-insensitive) `quit`. -/
def mainLoop : List String → List String × Bool
  | [] => ([], false)
  | q :: rest =>
    if str_lower q = "quit" then ([], true)
    else
      let r := mainLoop rest
      (q :: r.1, r.2)

/-- Concrete posts used on concrete runs of the loop. -/
def postA : Post := { title := "a", selftext := "", created_utc := 0, permalink := "" }

/-- A second concrete post, distinct from `postA`. -/
def postB : Post := { title := "b", selftext := "", created_utc := 0, permalink := "" }

/-- A third concrete post, distinct from `postA` and `postB`. -/
def postC : Post := { title := "c", selftext := "", created_utc := 0, permalink := "" }

/-- A concrete post with all-empty text fields; its rendering is 77 characters. -/
def postE : Post := { title := "", selftext := "", created_utc := 0, permalink := "" }

/-- A concrete token counter assigning cost 60 to `postB`'s rendering, 70 to
`postC`'s, and 50 to anything else (so the run on `[postA, postB, postC]`
has costs 50, 60, 70). -/
def ct3 : String → Nat := fun s =>
  if s = format_post postB then 60 else if s = format_post postC then 70 else 50

/-- A concrete token counter giving the run on `[postA, postB, postC]`
costs 50, 60, 40. -/
def ct4 : String → Nat := fun s =>
  if s = format_post postB then 60 else if s = format_post postC then 40 else 50

/-- Loop invariant of `fetchLoop`: `total_tokens` tracks the summed token
count of the accumulated blocks, and never exceeds the budget. -/
theorem fetchLoop_budget (ct : String → Nat) (B : Nat) (cutoff : Int) :
    ∀ (posts : List Post) (s : FetchState),
      s.total_tokens = (s.all_posts.map ct).sum → s.total_tokens ≤ B →
      (fetchLoop ct B cutoff posts s).total_tokens
          = ((fetchLoop ct B cutoff posts s).all_posts.map ct).sum
        ∧ (fetchLoop ct B cutoff posts s).total_tokens ≤ B := by
  intro posts
  induction posts with
  | nil => intro s h1 h2; exact ⟨h1, h2⟩
  | cons p rest ih =>
    intro s h1 h2
    by_cases hc : p.created_utc < cutoff
    · simpa [fetchLoop, hc] using And.intro h1 h2
    · by_cases hb : s.total_tokens + ct (format_post p) ≤ B
      · have := ih ⟨s.all_posts ++ [format_post p],
          s.total_tokens + ct (format_post p),
          s.posts_included + 1, s.posts_skipped⟩ (by simp [h1]) hb
        simpa [fetchLoop, hc, hb] using this
      · have := ih { s with posts_skipped := s.posts_skipped + 1 } h1 h2
        simpa [fetchLoop, hc, hb] using this

/-- C1: for every post sequence and budget `B`, the blocks accumulated by
`fetch_subreddit_posts` have summed token count at most `B`, unless the
collection is a single block whose own count exceeds `B` (a case this code
in fact never produces, so the bound always holds). -/
theorem fetch_budget_invariant (ct : String → Nat) (posts : List Post)
    (now days : Int) (B : Nat) :
    ((fetchState ct posts now days B).all_posts.map ct).sum ≤ B
      ∨ (∃ b, (fetchState ct posts now days B).all_posts = [b] ∧ B < ct b) := by
  left
  have h := fetchLoop_budget ct B (now - days * 86400) posts
    { all_posts := [], total_tokens := 0, posts_included := 0, posts_skipped := 0 }
    (by simp) (Nat.zero_le B)
  exact h.1 ▸ h.2

/-- C4: when the next post fits the budget exactly
(`total_tokens + post_tokens = max_tokens`), the comparison `<=` accepts it,
so the loop takes the include branch. -/
theorem exact_fit_included (ct : String → Nat) (B : Nat) (cutoff : Int)
    (s : FetchState) (p : Post) (rest : List Post)
    (hin : ¬ p.created_utc < cutoff)
    (hfit : s.total_tokens + ct (format_post p) = B) :
    fetchLoop ct B cutoff (p :: rest) s =
      fetchLoop ct B cutoff rest
        { all_posts := s.all_posts ++ [format_post p],
          total_tokens := s.total_tokens + ct (format_post p),
          posts_included := s.posts_included + 1,
          posts_skipped := s.posts_skipped } := by
  have hb : s.total_tokens + ct (format_post p) ≤ B := Nat.le_of_eq hfit
  simp [fetchLoop, hin, hb]

/-- Witness for C4: `postA`'s rendering is 78 characters; with counter
`String.length`, budget 78 and an empty current state, the post fits
exactly and is included. -/
theorem exact_fit_included_witness :
    0 + String.length (format_post postA) = 78 ∧
    fetchLoop String.length 78 (-86400) [postA]
        { all_posts := [], total_tokens := 0, posts_included := 0, posts_skipped := 0 } =
      fetchLoop String.length 78 (-86400) []
        { all_posts := [] ++ [format_post postA],
          total_tokens := 0 + String.length (format_post postA),
          posts_included := 0 + 1,
          posts_skipped := 0 } :=
  ⟨by decide,
   exact_fit_included String.length 78 (-86400)
     { all_posts := [], total_tokens := 0, posts_included := 0, posts_skipped := 0 }
     postA [] (by decide) (by decide)⟩

/-- Once the loop meets a post older than the cutoff it breaks: posts after
the first out-of-window post never affect the result. -/
theorem fetchLoop_break (ct : String → Nat) (B : Nat) (cutoff : Int) :
    ∀ (pre : List Post) (old : Post) (rest : List Post) (s : FetchState),
      (∀ p ∈ pre, ¬ p.created_utc < cutoff) → old.created_utc < cutoff →
      fetchLoop ct B cutoff (pre ++ old :: rest) s = fetchLoop ct B cutoff pre s := by
  intro pre
  induction pre with
  | nil =>
    intro old rest s _ hold
    simp [fetchLoop, hold]
  | cons p tl ih =>
    intro old rest s hpre hold
    have hp : ¬ p.created_utc < cutoff := hpre p (by simp)
    have htl : ∀ q ∈ tl, ¬ q.created_utc < cutoff := fun q hq => hpre q (by simp [hq])
    by_cases hb : s.total_tokens + ct (format_post p) ≤ B
    · simp only [List.cons_append, fetchLoop, hp, if_neg hp, if_pos hb]
      exact ih old rest _ htl hold
    · simp only [List.cons_append, fetchLoop, hp, if_neg hp, if_neg hb]
      exact ih old rest _ htl hold

/-- Every block accumulated by `fetchLoop` was already present or is the
rendering of an in-window post from the input. -/
theorem fetchLoop_mem (ct : String → Nat) (B : Nat) (cutoff : Int) :
    ∀ (posts : List Post) (s : FetchState) (b : String),
      b ∈ (fetchLoop ct B cutoff posts s).all_posts →
      b ∈ s.all_posts ∨ ∃ p ∈ posts, ¬ p.created_utc < cutoff ∧ b = format_post p := by
  intro posts
  induction posts with
  | nil => intro s b hb; exact Or.inl hb
  | cons p rest ih =>
    intro s b hb
    by_cases hc : p.created_utc < cutoff
    · rw [fetchLoop, if_pos hc] at hb
      exact Or.inl hb
    · by_cases hfit : s.total_tokens + ct (format_post p) ≤ B
      · rw [fetchLoop, if_neg hc] at hb
        simp only [hfit, if_pos] at hb
        rcases ih _ b hb with h | ⟨q, hq, hqc, hqb⟩
        · simp only [List.mem_append, List.mem_singleton] at h
          rcases h with h | h
          · exact Or.inl h
          · exact Or.inr ⟨p, by simp, hc, h⟩
        · exact Or.inr ⟨q, by simp [hq], hqc, hqb⟩
      · rw [fetchLoop, if_neg hc] at hb
        simp only [hfit, if_neg, if_false] at hb
        rcases ih _ b hb with h | ⟨q, hq, hqc, hqb⟩
        · exact Or.inl h
        · exact Or.inr ⟨q, by simp [hq], hqc, hqb⟩

/-- C5: with a reverse-chronological stream `pre ++ old :: rest` whose first
out-of-window post is `old`, the scan's result equals the result on `pre`
alone (so `old` and everything after it is never examined), and every
included block renders a post of `pre`, all of which are in-window — no
post older than the cutoff is ever included. -/
theorem cutoff_stops_scan (ct : String → Nat) (B : Nat) (now days : Int)
    (pre : List Post) (old : Post) (rest : List Post)
    (hpre : ∀ p ∈ pre, ¬ p.created_utc < now - days * 86400)
    (hold : old.created_utc < now - days * 86400) :
    fetchState ct (pre ++ old :: rest) now days B = fetchState ct pre now days B
    ∧ ∀ b ∈ (fetchState ct (pre ++ old :: rest) now days B).all_posts,
        ∃ p ∈ pre, ¬ p.created_utc < now - days * 86400 ∧ b = format_post p := by
  have heq := fetchLoop_break ct B (now - days * 86400) pre old rest
    { all_posts := [], total_tokens := 0, posts_included := 0, posts_skipped := 0 }
    hpre hold
  refine ⟨heq, ?_⟩
  intro b hb
  rw [show fetchState ct (pre ++ old :: rest) now days B = fetchState ct pre now days B
    from heq] at hb
  rcases fetchLoop_mem ct B (now - days * 86400) pre _ b hb with h | h
  · simp at h
  · exact h

/-- An out-of-window concrete post (far older than the 30-day cutoff). -/
def postOld : Post := { title := "o", selftext := "", created_utc := -10000000, permalink := "" }

/-- Witness for C5 at a concrete stream `[postA, postOld, postB]` with
`now = 0` and a 30-day window: the result equals the run on `[postA]`. -/
theorem cutoff_stops_scan_witness :
    fetchState ct3 ([postA] ++ postOld :: [postB]) 0 30 100 = fetchState ct3 [postA] 0 30 100
    ∧ ∀ b ∈ (fetchState ct3 ([postA] ++ postOld :: [postB]) 0 30 100).all_posts,
        ∃ p ∈ [postA], ¬ p.created_utc < 0 - 30 * 86400 ∧ b = format_post p :=
  cutoff_stops_scan ct3 100 0 30 [postA] postOld [postB] (by decide) (by decide)

/-- C2 counterexample: with budget 100 and a single in-window post whose
rendering counts 150 tokens, the code includes nothing — the post is
counted as skipped rather than emitted as its own one-element chunk. -/
theorem oversized_post_dropped_cex :
    (fetchState (fun _ => 150) [postA] 0 30 100).all_posts = []
    ∧ (fetchState (fun _ => 150) [postA] 0 30 100).posts_included = 0
    ∧ (fetchState (fun _ => 150) [postA] 0 30 100).posts_skipped = 1 := by
  decide

/-- C2 amended: a single in-window post whose rendering exceeds the budget
is dropped — the loop returns normally with no included block, zero
include count and skip count one. -/
theorem oversized_post_skipped (ct : String → Nat) (B : Nat) (p : Post)
    (now days : Int)
    (hin : ¬ p.created_utc < now - days * 86400)
    (hover : B < ct (format_post p)) :
    fetchState ct [p] now days B =
      { all_posts := [], total_tokens := 0, posts_included := 0, posts_skipped := 1 } := by
  have hb : ¬ 0 + ct (format_post p) ≤ B := by omega
  simp [fetchState, fetchLoop, hin, hb, hover]

/-- Witness for the amended C2, at counter `fun _ => 150`, budget 100. -/
theorem oversized_post_skipped_witness :
    fetchState (fun _ => 150) [postA] 0 30 100 =
      { all_posts := [], total_tokens := 0, posts_included := 0, posts_skipped := 1 } :=
  oversized_post_skipped (fun _ => 150) 100 postA 0 30 (by decide) (by decide)

/-- C3 counterexample: on a stream whose renderings cost 50, 60 and 70 with
budget 100, the code does not put each post in its own chunk with none
dropped — it includes only the first and skips (drops) the two others. -/
theorem trace_50_60_70_cex :
    (fetchState ct3 [postA, postB, postC] 0 30 100).posts_skipped = 2
    ∧ (fetchState ct3 [postA, postB, postC] 0 30 100).all_posts = [format_post postA] := by
  decide

/-- C3 amended: on costs `[50, 60, 70]` with budget 100, the loop includes
only the first post (total 50) and skips the other two: final state is one
block, 50 tokens, one included, two skipped. -/
theorem trace_50_60_70 :
    fetchState ct3 [postA, postB, postC] 0 30 100 =
      { all_posts := [format_post postA], total_tokens := 50,
        posts_included := 1, posts_skipped := 2 } := by
  decide

/-- C6: the rendered block decomposes, in order, into the title line, the
time line, the URL line joining the fixed base with the permalink, the
"Content:" label line, the raw body and the trailing separator; in
particular the title and the full URL occur as substrings of the block. -/
theorem format_post_structure (p : Post) :
    format_post p
      = "\nTitle: " ++ p.title ++ "\nTime: " ++ strftime p.created_utc ++ "\nURL: "
          ++ ("https://reddit.com" ++ p.permalink) ++ "\nContent:\n" ++ p.selftext ++ "\n---\n"
    ∧ p.title.data <:+: (format_post p).data
    ∧ ("https://reddit.com" ++ p.permalink).data <:+: (format_post p).data := by
  have hsplit : ("\nURL: https://reddit.com" : String) = "\nURL: " ++ "https://reddit.com" := by
    decide
  refine ⟨?_, ?_, ?_⟩
  · simp only [format_post, hsplit, String.append_assoc]
  · exact ⟨("\nTitle: " : String).data,
      ("\nTime: " ++ strftime p.created_utc ++ "\nURL: https://reddit.com" ++ p.permalink
        ++ "\nContent:\n" ++ p.selftext ++ "\n---\n").data,
      by simp [format_post, String.data_append, List.append_assoc]⟩
  · exact ⟨("\nTitle: " ++ p.title ++ "\nTime: " ++ strftime p.created_utc ++ "\nURL: ").data,
      ("\nContent:\n" ++ p.selftext ++ "\n---\n").data,
      by simp [format_post, hsplit, String.data_append, List.append_assoc]⟩

/-- C7: if every earlier input lowercases to something other than "quit"
and input `q` lowercases to "quit", the interactive loop forwards exactly
the earlier inputs to the backend and terminates at `q` — no backend
request is issued for `q`, and the remaining inputs are never read. -/
theorem quit_terminates_loop (pre : List String) (q : String) (rest : List String)
    (hpre : ∀ s ∈ pre, str_lower s ≠ "quit")
    (hq : str_lower q = "quit") :
    mainLoop (pre ++ q :: rest) = (pre, true) := by
  induction pre with
  | nil => simp [mainLoop, hq]
  | cons a tl ih =>
    have ha : str_lower a ≠ "quit" := hpre a (by simp)
    have htl : ∀ s ∈ tl, str_lower s ≠ "quit" := fun s hs => hpre s (by simp [hs])
    simp [mainLoop, ha, ih htl]

/-- Witness for C7: one ordinary question, then "QUIT" in capitals. -/
theorem quit_terminates_loop_witness :
    mainLoop (["What are the main topics?"] ++ "QUIT" :: ["never read"]) =
      (["What are the main topics?"], true) :=
  quit_terminates_loop ["What are the main topics?"] "QUIT" ["never read"]
    (by decide) (by decide)

/-- `inWindow cutoff p` is the loop-continuation test: the post's creation
time is not before the cutoff. -/
def inWindow (cutoff : Int) (p : Post) : Bool :=
  decide (¬ p.created_utc < cutoff)

/-- The blocks accumulated by `fetchLoop` extend the starting blocks by an
order-preserving (possibly non-contiguous) subsequence of the renderings
of the in-window leading segment of the input posts. -/
theorem fetchLoop_sublist (ct : String → Nat) (B : Nat) (cutoff : Int) :
    ∀ (posts : List Post) (s : FetchState),
      ∃ t, (fetchLoop ct B cutoff posts s).all_posts = s.all_posts ++ t
        ∧ List.Sublist t ((posts.takeWhile (inWindow cutoff)).map format_post) := by
  intro posts
  induction posts with
  | nil => intro s; exact ⟨[], by simp [fetchLoop], List.nil_sublist _⟩
  | cons p rest ih =>
    intro s
    by_cases hc : p.created_utc < cutoff
    · exact ⟨[], by simp [fetchLoop, hc], List.nil_sublist _⟩
    · have hw : inWindow cutoff p = true := by simp [inWindow, hc]
      by_cases hb : s.total_tokens + ct (format_post p) ≤ B
      · obtain ⟨t, ht, hsub⟩ := ih ⟨s.all_posts ++ [format_post p],
          s.total_tokens + ct (format_post p), s.posts_included + 1, s.posts_skipped⟩
        refine ⟨format_post p :: t, ?_, ?_⟩
        · simp only [fetchLoop, if_neg hc, if_pos hb]
          simpa using ht
        · simp only [List.takeWhile_cons, hw, if_true, List.map_cons]
          simpa using List.Sublist.cons₂ (format_post p) hsub
      · obtain ⟨t, ht, hsub⟩ := ih { s with posts_skipped := s.posts_skipped + 1 }
        refine ⟨t, ?_, ?_⟩
        · simp only [fetchLoop, if_neg hc, if_neg hb]
          simpa using ht
        · simp only [List.takeWhile_cons, hw, if_true, List.map_cons]
          simpa using List.Sublist.cons (format_post p) hsub

/-- C8: a skipped over-budget post does not stop the scan. In general the
included blocks form an order-preserving subsequence of the rendered
stream; concretely, with costs 50, 60, 40 and budget 100 the middle post
is skipped while the later, still-fitting post is included, so the result
is not a leading contiguous slice of the stream. -/
theorem included_subsequence_not_contiguous :
    (∀ (ct : String → Nat) (posts : List Post) (now days : Int) (B : Nat),
        List.Sublist (fetchState ct posts now days B).all_posts
          ((posts.takeWhile (inWindow (now - days * 86400))).map format_post))
    ∧ (fetchState ct4 [postA, postB, postC] 0 30 100).all_posts
        = [format_post postA, format_post postC]
    ∧ (fetchState ct4 [postA, postB, postC] 0 30 100).posts_skipped = 1
    ∧ ¬ ((fetchState ct4 [postA, postB, postC] 0 30 100).all_posts
          <+: List.map format_post [postA, postB, postC]) := by
  refine ⟨?_, by decide, by decide, by decide⟩
  intro ct posts now days B
  obtain ⟨t, ht, hsub⟩ := fetchLoop_sublist ct B (now - days * 86400) posts
    { all_posts := [], total_tokens := 0, posts_included := 0, posts_skipped := 0 }
  have h : (fetchState ct posts now days B).all_posts = t := by
    simpa [fetchState] using ht
  rw [h]
  exact hsub

/-- Count invariant of `fetchLoop` over in-window posts: the include and
skip counters advance together with the number of processed posts, and the
include counter advances with the number of accumulated blocks. -/
theorem fetchLoop_counts (ct : String → Nat) (B : Nat) (cutoff : Int) :
    ∀ (posts : List Post) (s : FetchState),
      (∀ p ∈ posts, ¬ p.created_utc < cutoff) →
      (fetchLoop ct B cutoff posts s).posts_included
          + (fetchLoop ct B cutoff posts s).posts_skipped
        = s.posts_included + s.posts_skipped + posts.length
      ∧ (fetchLoop ct B cutoff posts s).all_posts.length + s.posts_included
        = (fetchLoop ct B cutoff posts s).posts_included + s.all_posts.length := by
  intro posts
  induction posts with
  | nil => intro s _; simp [fetchLoop]; omega
  | cons p rest ih =>
    intro s hwin
    have hp : ¬ p.created_utc < cutoff := hwin p (by simp)
    have hrest : ∀ q ∈ rest, ¬ q.created_utc < cutoff := fun q hq => hwin q (by simp [hq])
    by_cases hb : s.total_tokens + ct (format_post p) ≤ B
    · have h := ih ⟨s.all_posts ++ [format_post p],
        s.total_tokens + ct (format_post p), s.posts_included + 1, s.posts_skipped⟩ hrest
      simp only [fetchLoop, if_neg hp, if_pos hb, List.length_cons]
      simp only [List.length_append, List.length_singleton] at h
      omega
    · have h := ih { s with posts_skipped := s.posts_skipped + 1 } hrest
      simp only [fetchLoop, if_neg hp, if_neg hb, List.length_cons]
      dsimp only at h ⊢
      omega

/-- C9: after processing the first `k` in-window posts, the include and
skip counts sum to the number of posts processed, the include count equals
the number of accumulated blocks, and the string returned by
`fetch_subreddit_posts` is exactly the newline-join of the accumulated
blocks in input order. -/
theorem loop_count_invariant (ct : String → Nat) (posts : List Post)
    (now days : Int) (B : Nat) (k : Nat)
    (hwin : ∀ p ∈ posts, ¬ p.created_utc < now - days * 86400) :
    (fetchState ct (posts.take k) now days B).posts_included
        + (fetchState ct (posts.take k) now days B).posts_skipped
      = (posts.take k).length
    ∧ (fetchState ct (posts.take k) now days B).posts_included
      = (fetchState ct (posts.take k) now days B).all_posts.length
    ∧ (fetch_subreddit_posts ct posts now days B).1
      = String.intercalate "\n" (fetchState ct posts now days B).all_posts := by
  have hwk : ∀ p ∈ posts.take k, ¬ p.created_utc < now - days * 86400 :=
    fun p hp => hwin p (List.take_subset k posts hp)
  have h := fetchLoop_counts ct B (now - days * 86400) (posts.take k)
    { all_posts := [], total_tokens := 0, posts_included := 0, posts_skipped := 0 } hwk
  dsimp only at h
  simp only [List.length_nil] at h
  refine ⟨?_, ?_, rfl⟩
  · simp only [fetchState]
    omega
  · simp only [fetchState]
    omega

/-- Witness for C9 on the two-post stream `[postA, postB]` with `k = 2`. -/
theorem loop_count_invariant_witness :
    (fetchState ct3 ([postA, postB].take 2) 0 30 100).posts_included
        + (fetchState ct3 ([postA, postB].take 2) 0 30 100).posts_skipped
      = ([postA, postB].take 2).length
    ∧ (fetchState ct3 ([postA, postB].take 2) 0 30 100).posts_included
      = (fetchState ct3 ([postA, postB].take 2) 0 30 100).all_posts.length
    ∧ (fetch_subreddit_posts ct3 [postA, postB] 0 30 100).1
      = String.intercalate "\n" (fetchState ct3 [postA, postB] 0 30 100).all_posts :=
  loop_count_invariant ct3 [postA, postB] 0 30 100 2 (by decide)

/-- C10: the budget check bounds only the per-block sum, not the joined
string: with counter `String.length` and budget 154, both 77-token posts
pass the check and none is skipped, yet the combined string returned by
`fetch_subreddit_posts` counts 155 because the "\n" separator inserted by
the join is never charged against the budget. -/
theorem join_separators_uncounted :
    (fetchState String.length [postE, postE] 0 30 154).posts_skipped = 0
    ∧ (fetchState String.length [postE, postE] 0 30 154).posts_included = 2
    ∧ 154 < String.length (fetch_subreddit_posts String.length [postE, postE] 0 30 154).1 := by
  decide
